import Mathlib

/-!
Shallow embedding of the job-postings-analysis ML service: the request
admission core (auth gate, sliding-window rate limiter, concurrency gate)
and the deterministic inference post-processors (salary pipeline, skill-gap
analyzer, clustering adjacency), translated from `ml-service/app`.

Machine floats are embedded as `ℚ`; Python `int` as `ℤ`/`ℕ`; Python dicts
as association lists looked up by first match; functions that can raise
return `Except String`.  The three opaque quantile predictors, the target
encoder and the external cosine-similarity routine are external numeric
collaborators (spec §1/§9): they enter the embedding as parameters
(predicted values / an opaque similarity capability), never as
reimplementations.
-/

/-! ## Python numeric primitives -/

/-- Python `round(x)` (banker's rounding, round-half-to-even) on `ℚ`. -/
def py_round (q : ℚ) : ℤ :=
  if q - ⌊q⌋ < 1/2 then ⌊q⌋
  else if 1/2 < q - ⌊q⌋ then ⌊q⌋ + 1
  else if ⌊q⌋ % 2 = 0 then ⌊q⌋ else ⌊q⌋ + 1

/-- Python `round(x, ndigits)` on `ℚ`. -/
def py_round_to (ndigits : ℕ) (q : ℚ) : ℚ :=
  (py_round (q * 10 ^ ndigits) : ℚ) / 10 ^ ndigits

/-- Python `int(x)`: truncation toward zero. -/
def py_int (q : ℚ) : ℤ := if 0 ≤ q then ⌊q⌋ else ⌈q⌉

/-! ## Python string primitives (over the character list of a `String`) -/

/-- Python `str.lower()` (ASCII case folding, as `Char.toLower`). -/
def py_lower (s : String) : String := String.mk (s.data.map Char.toLower)

/-- Python `str.upper()` (ASCII case folding, as `Char.toUpper`). -/
def py_upper (s : String) : String := String.mk (s.data.map Char.toUpper)

/-- Remove leading and trailing characters satisfying `p`. -/
def strip_chars (p : Char → Bool) (cs : List Char) : List Char :=
  ((cs.dropWhile p).reverse.dropWhile p).reverse

/-- Python `str.strip()` (whitespace at both ends). -/
def py_strip (s : String) : String :=
  String.mk (strip_chars Char.isWhitespace s.data)

/-- Python `s.startswith(pre)`. -/
def py_startswith (s pre : String) : Bool := pre.data.isPrefixOf s.data

/-- Python `needle in hay` (contiguous substring containment). -/
def py_contains (hay needle : String) : Bool := decide (needle.data <:+: hay.data)

/-- Python `list.index` on strings: the first index of `x`, or `ValueError`. -/
def py_index (x : String) : List String → Except String ℕ
  | [] => .error "ValueError"
  | y :: rest => if y == x then .ok 0 else (py_index x rest).map (· + 1)

deriving instance DecidableEq for Except

/-- `True` exactly on the `Except.error` constructor. -/
def except_is_error {ε α : Type} : Except ε α → Bool
  | .error _ => true
  | .ok _ => false

/-! ## Ascending argsort (numpy `argsort`)

`np.argsort` with the default kind documents only that the returned
indices list the values in ascending order; the order among ties is
unspecified (the default introsort is not stable in general, though its
insertion-sort fallback makes small arrays come out stable in practice).
`is_argsort_of` states that documented contract; theorems whose
conclusion could depend on the tie order quantify over every index list
satisfying it.  `argsort` below is one admissible instance — the stable
ascending sort on (value, index), which is exactly what the library
produces on inputs below the insertion-sort threshold; the skill-gap
embedding uses it directly, and every property proved about those
results is insensitive to the tie order chosen. -/

/-- The documented contract of a `np.argsort(xs)` result: a permutation
of the index range listing the values of `xs` in ascending order (tie
order unspecified). -/
def is_argsort_of (xs : List ℚ) (idxs : List ℕ) : Prop :=
  idxs.Perm (List.range xs.length) ∧
  idxs.Pairwise (fun i j => xs.getD i 0 ≤ xs.getD j 0)

/-- Comparator for `argsort`: lexicographic on (value at index, index). -/
def argsort_le (xs : List ℚ) (i j : ℕ) : Bool :=
  decide (xs.getD i 0 < xs.getD j 0 ∨ (xs.getD i 0 = xs.getD j 0 ∧ i ≤ j))

/-- One admissible `np.argsort(xs)` order: indices sorted ascending by
value, ties ascending by index (what the library's insertion-sort
fallback yields on small inputs). -/
def argsort (xs : List ℚ) : List ℕ :=
  (List.range xs.length).mergeSort (argsort_le xs)

/-! ## Auth gate (`app/middleware/auth.py`, `ml_service_auth_middleware`)

Identity hashing and event logging are side effects with no influence on
the gate's decision and are not modelled. -/

/-- The slice of `app/config.py` `Settings` the auth gate reads
(`ml_service_key` defaults to the empty string = unconfigured). -/
structure AuthConfig where
  ml_service_auth_required : Bool
  ml_service_key : String
deriving DecidableEq

/-- Outcome of a middleware: pass the request downstream, or answer with an
error status and error code. -/
inductive AuthDecision where
  | passthrough
  | reject (status : ℕ) (error : String)
deriving DecidableEq

/-- `ml_service_auth_middleware`: bypass for non-API and health paths; pass
through when auth is not required; `503 ml_unavailable` when no secret is
configured; otherwise exact match of the stripped header value against the
secret. -/
def ml_service_auth_middleware (cfg : AuthConfig) (path : String)
    (provided_key_header : Option String) : AuthDecision :=
  if !(py_startswith path "/api/v1") || path == "/api/v1/health" then
    .passthrough
  else if !cfg.ml_service_auth_required then
    .passthrough
  else if cfg.ml_service_key == "" then
    .reject 503 "ml_unavailable"
  else if py_strip (provided_key_header.getD "") != cfg.ml_service_key then
    .reject 401 "unauthorized"
  else
    .passthrough

/-! ## Sliding-window rate limiter (`app/middleware/rate_limit.py`) -/

/-- The sliding window length, `WINDOW_SECONDS = 60 * 60`. -/
def WINDOW_SECONDS : ℚ := 60 * 60

/-- The four endpoint classes produced by `classify_endpoint`. -/
inductive EndpointClass where
  | predict
  | skill_gap
  | metadata
  | lookup
deriving DecidableEq

/-- A bucket key `f"{client_ip}:{scope}"`: the per-identity global scope or
one endpoint-class scope. -/
inductive Scope where
  | global
  | endpoint (cls : EndpointClass)
deriving DecidableEq

/-- Key of one rate bucket. -/
abbrev BucketKey := String × Scope

/-- `SlidingWindowRateLimiter.buckets`: a `defaultdict(deque)` keyed by
bucket key, embedded as an association list (missing key = empty deque). -/
abbrev Buckets := List (BucketKey × List ℚ)

/-- Read a bucket (`self.buckets[key]`, defaulting to empty). -/
def get_bucket (B : Buckets) (k : BucketKey) : List ℚ :=
  match B.find? (fun e => decide (e.1 = k)) with
  | some e => e.2
  | none => []

/-- Write a bucket back into the collection. -/
def set_bucket (B : Buckets) (k : BucketKey) (v : List ℚ) : Buckets :=
  (k, v) :: B.filter (fun e => !decide (e.1 = k))

/-- `_prune`: pop from the front while the head is `≤ now - WINDOW_SECONDS`. -/
def prune (bucket : List ℚ) (now : ℚ) : List ℚ :=
  bucket.dropWhile (fun t => decide (t ≤ now - WINDOW_SECONDS))

/-- `RateLimitResult`. -/
structure RateLimitResult where
  allowed : Bool
  scope : String
  limit : ℕ
  remaining : ℕ
  retry_after_seconds : ℤ
  reset_at_seconds : ℤ
deriving DecidableEq

/-- `SlidingWindowRateLimiter.check_and_consume`: prune both buckets, reject
on the global then the endpoint-class limit (buckets keep their pruned
contents), else append `now` to both.  `bucket[0]` on an empty deque is an
`IndexError` (reachable only with a limit of 0). -/
def check_and_consume (B : Buckets) (client_ip : String) (endpoint_class : EndpointClass)
    (endpoint_limit global_limit : ℕ) (now : ℚ) :
    Except String (RateLimitResult × Buckets) :=
  let global_key : BucketKey := (client_ip, Scope.global)
  let endpoint_key : BucketKey := (client_ip, Scope.endpoint endpoint_class)
  let global_bucket := prune (get_bucket B global_key) now
  let endpoint_bucket := prune (get_bucket B endpoint_key) now
  let B1 := set_bucket (set_bucket B global_key global_bucket) endpoint_key endpoint_bucket
  if global_limit ≤ global_bucket.length then
    match global_bucket with
    | [] => .error "IndexError"
    | oldest :: _ =>
      let retry_after := max 1 ⌈oldest + WINDOW_SECONDS - now⌉
      .ok (⟨false, "global", global_limit, 0, retry_after, py_int now + retry_after⟩, B1)
  else if endpoint_limit ≤ endpoint_bucket.length then
    match endpoint_bucket with
    | [] => .error "IndexError"
    | oldest :: _ =>
      let retry_after := max 1 ⌈oldest + WINDOW_SECONDS - now⌉
      .ok (⟨false, "route", endpoint_limit, 0, retry_after, py_int now + retry_after⟩, B1)
  else
    let global_after := global_bucket ++ [now]
    let endpoint_after := endpoint_bucket ++ [now]
    let B2 := set_bucket (set_bucket B global_key global_after) endpoint_key endpoint_after
    let remaining := endpoint_limit - endpoint_after.length
    let reset_at := py_int (endpoint_after.headD now + WINDOW_SECONDS)
    .ok (⟨true, "route", endpoint_limit, remaining, 0, reset_at⟩, B2)

/-- A sequence of `check_and_consume` calls threaded through the bucket
state: requests are `(client_ip, endpoint_class, now)`, with per-class
limits drawn from `endpoint_limit_for`. -/
def run_limiter (endpoint_limit_for : EndpointClass → ℕ) (global_limit : ℕ) :
    List (String × EndpointClass × ℚ) → Buckets → Except String Buckets
  | [], B => .ok B
  | (c, cls, now) :: rest, B =>
    match check_and_consume B c cls (endpoint_limit_for cls) global_limit now with
    | .error e => .error e
    | .ok (_, B1) => run_limiter endpoint_limit_for global_limit rest B1

/-- Default per-hour limits of `app/config.py`. -/
def ml_limit_predict_per_hour : ℕ := 40
/-- Default global per-hour limit of `app/config.py`. -/
def ml_limit_global_per_hour : ℕ := 400
/-- Default concurrency pool configuration of `app/config.py`. -/
def ml_max_concurrent_infer : ℕ := 2

/-- Invariant: every endpoint-class bucket is within its configured limit
and every global bucket within the global limit. -/
def sizes_ok (endpoint_limit_for : EndpointClass → ℕ) (global_limit : ℕ) (B : Buckets) : Prop :=
  ∀ (c : String) (cls : EndpointClass),
    (get_bucket B (c, Scope.endpoint cls)).length ≤ endpoint_limit_for cls ∧
    (get_bucket B (c, Scope.global)).length ≤ global_limit

/-- Invariant: every bucket is sorted by insertion time and bounded by the
last observed clock value. -/
def sorted_bounded (B : Buckets) (T : ℚ) : Prop :=
  ∀ k : BucketKey, (get_bucket B k).Pairwise (· ≤ ·) ∧ ∀ t ∈ get_bucket B k, t ≤ T

/-! ## Concurrency admission gate (`rate_limit.py` lines 102-103, 244-268)

`infer_semaphore = asyncio.Semaphore(max(1, settings.ml_max_concurrent_infer))`;
the middleware rejects with a fixed 429 when `infer_semaphore.locked()`,
else acquires, awaits the handler inside `try`, and releases in `finally`.
Under the single-threaded cooperative scheduler there is no suspension
between the `locked()` check and the acquire, so the acquire is immediate.
`in_use` counts permits currently held; the trace records the held-permit
count at each step of the request. -/

/-- Result of the gated section: fail-fast 429, a completed downstream
response, or a propagated exception (released in `finally` either way). -/
inductive GateOutcome (α : Type) where
  | rejected (retry_after : ℕ) (limit : ℕ) (remaining : ℕ)
  | completed (r : α)
  | raised (e : String)
deriving DecidableEq

/-- The concurrency-gated section of `ml_rate_limit_middleware` for a heavy
endpoint: returns the outcome, the permit count after the request, and the
trace of permit counts while it ran. -/
def infer_gate {α : Type} (ml_max_concurrent : ℕ) (in_use : ℕ)
    (handler : Except String α) : GateOutcome α × ℕ × List ℕ :=
  if max 1 ml_max_concurrent ≤ in_use then
    (.rejected 5 (max 1 ml_max_concurrent) 0, in_use, [in_use])
  else
    match handler with
    | .ok r => (.completed r, in_use + 1 - 1, [in_use, in_use + 1, in_use + 1 - 1])
    | .error e => (.raised e, in_use + 1 - 1, [in_use, in_use + 1, in_use + 1 - 1])

/-! ## Salary post-processor (`app/models/salary_inference.py`)

The three LightGBM quantile predictors, the target encoder and the feature
reindexing (steps 1-8 of the pipeline) are opaque numeric collaborators:
the raw quantile predictions enter `predict_salary` as parameters
`pred_median`, `pred_p10`, `pred_p90` (the values of
`model_*.predict(df)[0]`).  The explanatory factors are read off the
opaque median predictor's importance introspection and are not modelled. -/

/-- `SalaryPredictionRequest` (schema defaults applied by the transport). -/
structure SalaryPredictionRequest where
  title : String
  location : String
  country : String
  experience_level : String
  work_type : String
  remote_allowed : Option Bool
  skills : List String
  industries : List String
  employee_count : Option ℤ
  company_scale_tier : Option String

/-- `SalaryAdjustment`. -/
structure SalaryAdjustment where
  source : String
  delta : ℤ
deriving DecidableEq

/-- `SalaryPredictionResponse` minus the opaque-predictor `factors` list. -/
structure SalaryPredictionResponse where
  predicted_salary : ℤ
  lower_bound : ℤ
  upper_bound : ℤ
  confidence : ℚ
  adjustments : List SalaryAdjustment
deriving DecidableEq

/-- `EXPERIENCE_ORDINAL` lookup table. -/
def EXPERIENCE_ORDINAL : List (String × ℤ) :=
  [("", -1), ("internship", 0), ("entry level", 1), ("entry", 1), ("associate", 2),
   ("mid-senior level", 3), ("mid-senior", 3), ("director", 4), ("executive", 5)]

/-- `_parse_city_state`: split on the first comma, strip, lower-case. -/
def parse_city_state (location : String) : String × String :=
  let cs := location.data
  let city := py_lower (String.mk (strip_chars Char.isWhitespace (cs.takeWhile (fun c => !(c == ',')))))
  match cs.dropWhile (fun c => !(c == ',')) with
  | [] => (city, "")
  | _ :: tl => (city, py_lower (String.mk (strip_chars Char.isWhitespace tl)))

/-- Company scale metadata (`company_scale_meta` artifact /
`DEFAULT_SCALE_META`); the four boundaries are the unpacked
`boundaries` list. -/
structure CompanyScaleMeta where
  boundary0 : ℚ
  boundary1 : ℚ
  boundary2 : ℚ
  boundary3 : ℚ
  tier_order : List String
  representative_counts : List (String × ℚ)

/-- `DEFAULT_SCALE_META`. -/
def DEFAULT_SCALE_META : CompanyScaleMeta :=
  ⟨25, 100, 500, 2000,
   ["micro", "small", "mid", "large", "enterprise"],
   [("micro", 15), ("small", 65), ("mid", 280), ("large", 1200), ("enterprise", 3000)]⟩

/-- `_resolve_tier_from_count`. -/
def resolve_tier_from_count (value : ℚ) (m : CompanyScaleMeta) : String :=
  if value ≤ 0 then "mid"
  else if value ≤ m.boundary0 then "micro"
  else if value ≤ m.boundary1 then "small"
  else if value ≤ m.boundary2 then "mid"
  else if value ≤ m.boundary3 then "large"
  else "enterprise"

/-- `_resolve_company_scale_tier`: explicit valid tier, else derive from a
positive employee count, else default to `"mid"`; paired with the tier's
representative posting count. -/
def resolve_company_scale_tier (req : SalaryPredictionRequest)
    (company_scale_meta : Option CompanyScaleMeta) : String × ℚ :=
  let sm := company_scale_meta.getD DEFAULT_SCALE_META
  if (match req.company_scale_tier with
      | some t => t != "" && sm.tier_order.contains t
      | none => false) then
    let tier := req.company_scale_tier.getD ""
    (tier, (sm.representative_counts.lookup tier).getD 0)
  else if (match req.employee_count with
      | some n => decide (0 < n)
      | none => false) then
    let tier := resolve_tier_from_count ((req.employee_count.getD 0 : ℤ) : ℚ) sm
    (tier, (sm.representative_counts.lookup tier).getD 0)
  else
    ("mid", (sm.representative_counts.lookup "mid").getD 0)

/-- `_resolve_known_skills`: with a vocabulary artifact (its `skill_abrs`
list), keep upper-cased skills found in it; without, upper-case everything. -/
def resolve_known_skills (skills : List String) (salary_skill_vocab : Option (List String)) :
    List String :=
  match salary_skill_vocab with
  | some skill_abrs =>
    let valid := skill_abrs.map py_upper
    (skills.map py_upper).filter (fun s => valid.contains s)
  | none => skills.map py_upper

/-- The `salary_premiums` artifact as a dict: absent keys are embedded as
the `dict.get` defaults (`skill_weight`/`tier_weight` 1, ratio 0.35,
absolute 60000).  `max_adjustment_fraction` embeds the table's
max-adjustment-ratio entry. -/
structure PremiumTable where
  role_skill_deltas : List (String × List (String × ℚ))
  global_skill_deltas : List (String × ℚ)
  role_tier_deltas : List (String × List (String × ℚ))
  global_tier_deltas : List (String × ℚ)
  skill_weight : ℚ
  tier_weight : ℚ
  max_adjustment_fraction : ℚ
  max_absolute_adjustment : ℚ

/-- `_apply_premiums`: mean matched skill delta (role table first, else
global) times `skill_weight`, plus tier delta times `tier_weight`; the sum
clamped to `min(max_absolute, |median| * max_ratio)` in magnitude and added
to all three quantiles; named adjustments recorded for unclamped deltas of
magnitude at least 1. -/
def apply_premiums (role_title : String) (selected_skills : List String)
    (company_tier : String) (prediction_median prediction_p10 prediction_p90 : ℚ)
    (salary_premiums : Option PremiumTable) :
    ℚ × ℚ × ℚ × List SalaryAdjustment :=
  match salary_premiums with
  | none => (prediction_median, prediction_p10, prediction_p90, [])
  | some t =>
    let role_key := py_lower role_title
    let role_skill_map := (t.role_skill_deltas.lookup role_key).getD []
    let per_skill_deltas := selected_skills.filterMap (fun skill =>
      let feature_key := "skill_" ++ skill
      match role_skill_map.lookup feature_key with
      | some d => some d
      | none => t.global_skill_deltas.lookup feature_key)
    let skill_delta :=
      (if per_skill_deltas.isEmpty then 0
       else per_skill_deltas.sum / (per_skill_deltas.length : ℚ)) * t.skill_weight
    let role_tier_map := (t.role_tier_deltas.lookup role_key).getD []
    let tier_delta :=
      ((role_tier_map.lookup company_tier).getD
        ((t.global_tier_deltas.lookup company_tier).getD 0)) * t.tier_weight
    let total_delta := skill_delta + tier_delta
    let max_allowed := min t.max_absolute_adjustment (|prediction_median| * t.max_adjustment_fraction)
    let total_clamped := max (-max_allowed) (min max_allowed total_delta)
    let adjustments :=
      (if 1 ≤ |skill_delta| then [SalaryAdjustment.mk "skills" (py_round skill_delta)] else []) ++
      (if 1 ≤ |tier_delta| then [SalaryAdjustment.mk "company_scale" (py_round tier_delta)] else [])
    (prediction_median + total_clamped, prediction_p10 + total_clamped,
     prediction_p90 + total_clamped, adjustments)

/-- `predict_salary` from the three opaque quantile predictions onward:
premium blending, final clamping of median to `[20000, 500000]`, P10 to
`[20000, median]`, P90 to `[median, 500000]`, confidence from the clamped
spread, and integer rounding into the response. -/
def predict_salary (req : SalaryPredictionRequest)
    (pred_median_raw pred_p10_raw pred_p90_raw : ℚ)
    (salary_skill_vocab : Option (List String))
    (company_scale_meta : Option CompanyScaleMeta)
    (salary_premiums : Option PremiumTable) : SalaryPredictionResponse :=
  let tier := resolve_company_scale_tier req company_scale_meta
  let known_skills := resolve_known_skills req.skills salary_skill_vocab
  let blended := apply_premiums req.title known_skills tier.1
    pred_median_raw pred_p10_raw pred_p90_raw salary_premiums
  let pred_median := max 20000 (min 500000 blended.1)
  let pred_p10 := max 20000 (min pred_median blended.2.1)
  let pred_p90 := max pred_median (min 500000 blended.2.2.1)
  let salary_range := pred_p90 - pred_p10
  let confidence := max (1/10) (min 1 (1 - salary_range / max pred_median 1 * (1/2)))
  ⟨py_round pred_median, py_round pred_p10, py_round pred_p90,
   py_round_to 3 confidence, blended.2.2.2⟩

/-! ## Skill-gap analyzer (`app/models/skill_gap_inference.py`)

The TF-IDF vectorizer and matrix artifacts enter as plain data: the term
list `feature_names` (`vectorizer.get_feature_names_out()`) and the dense
row list `tfidf_rows` (row `i` is `tfidf_matrix[i].toarray().flatten()`). -/

/-- `SkillGapRequest`. -/
structure SkillGapRequest where
  current_skills : List String
  target_role : String

/-- `SkillDetail`. -/
structure SkillDetail where
  skill : String
  importance : ℚ
  status : String
deriving DecidableEq

/-- `SkillGapResponse`. -/
structure SkillGapResponse where
  canonical_role : String
  match_percentage : ℚ
  skills : List SkillDetail
  learning_priority : List String
deriving DecidableEq

/-- Keep `[a-z0-9]`, whitespace and hyphens (the complement of `_slugify`'s
first regex). -/
def slug_keep (c : Char) : Bool :=
  (decide ('a' ≤ c) && decide (c ≤ 'z')) || (decide ('0' ≤ c) && decide (c ≤ '9')) ||
    c.isWhitespace || c == '-'

/-- Collapse every run of whitespace/hyphens to a single hyphen
(`re.sub(r"[\s-]+", "-", s)`); the flag tracks being inside a run. -/
def collapse_seps : Bool → List Char → List Char
  | _, [] => []
  | in_run, c :: rest =>
    if c.isWhitespace || c == '-' then
      if in_run then collapse_seps true rest else '-' :: collapse_seps true rest
    else c :: collapse_seps false rest

/-- `_slugify` (identical in `skill_gap_inference.py` and
`clustering_inference.py`). -/
def slugify (name : String) : String :=
  let s := py_strip (py_lower name)
  String.mk (strip_chars (fun c => c == '-') (collapse_seps false (s.data.filter slug_keep)))

/-- `_find_role`: first role matching by lower-cased name or by slug. -/
def find_role (target : String) (role_index : List String) : Option String :=
  let target_lower := py_strip (py_lower target)
  let target_slug := slugify target
  role_index.find? (fun role => py_lower role == target_lower || slugify role == target_slug)

/-- `_fuzzy_match`: case-insensitive equality or substring containment in
either direction. -/
def fuzzy_match (user_skill tfidf_term : String) : Bool :=
  let user_lower := py_strip (py_lower user_skill)
  let term_lower := py_strip (py_lower tfidf_term)
  user_lower == term_lower || py_contains term_lower user_lower ||
    py_contains user_lower term_lower

/-- `np.argsort(row)[::-1][:30]` filtered to strictly positive scores (the
comprehension's `if row[i] > 0` guard). -/
def top_term_indices (row : List ℚ) : List ℕ :=
  (((argsort row).reverse).take 30).filter (fun i => decide (0 < row.getD i 0))

/-- The comprehension `[(feature_names[i], row[i]) for i in idxs]`;
`feature_names[i]` out of range is an `IndexError`. -/
def build_top_terms (feature_names : List String) (row : List ℚ) :
    List ℕ → Except String (List (String × ℚ))
  | [] => .ok []
  | i :: rest =>
    match feature_names[i]? with
    | none => .error "IndexError"
    | some n => (build_top_terms feature_names row rest).map (fun ts => (n, row.getD i 0) :: ts)

/-- The classification loop over `top_terms`: importance is the score
normalized by `max_score` rounded to 3 decimals, status `matched` when some
user skill fuzzily matches. -/
def classify_terms (current_skills : List String) (top_terms : List (String × ℚ))
    (max_score : ℚ) : List SkillDetail :=
  top_terms.map (fun t =>
    let importance := py_round_to 3 (t.2 / max_score)
    if current_skills.any (fun us => fuzzy_match us t.1) then
      ⟨t.1, importance, "matched"⟩
    else
      ⟨t.1, importance, "gap"⟩)

/-- The bonus loop: a user skill not fuzzily matching anything already in
the (growing) result list is appended as a `bonus` entry. -/
def append_bonuses (current_skills : List String) (acc : List SkillDetail) : List SkillDetail :=
  match current_skills with
  | [] => acc
  | us :: rest =>
    if acc.any (fun s => fuzzy_match us s.skill) then append_bonuses rest acc
    else append_bonuses rest (acc ++ [⟨us, 0, "bonus"⟩])

/-- Role resolution of `analyze_skill_gap`: `_find_role` result, else the
first index entry, else the name `"Unknown"`. -/
def resolve_role_name (target : String) (role_index : List String) : String :=
  match find_role target role_index with
  | some r => r
  | none => match role_index with
    | r :: _ => r
    | [] => "Unknown"

/-- The nonempty-`top_terms` tail of `analyze_skill_gap`: normalize by the
first (maximal) score, classify, append bonuses, compute the match
percentage and the gap-priority list. -/
def build_response (role_name : String) (current_skills : List String)
    (top_terms : List (String × ℚ)) : SkillGapResponse :=
  let max_score := (top_terms.headD ("", 1)).2
  let skills_main := classify_terms current_skills top_terms max_score
  let matched_count := (skills_main.filter (fun s => s.status == "matched")).length
  let gap_skills := (skills_main.filter (fun s => s.status == "gap")).map
    (fun s => (s.skill, s.importance))
  let skills_all := append_bonuses current_skills skills_main
  let match_pct :=
    py_round_to 1 (((matched_count : ℚ) / (top_terms.length : ℚ)) * 100)
  let learning_priority :=
    (gap_skills.mergeSort (fun a b => decide (b.2 ≤ a.2))).map (fun p => p.1)
  ⟨role_name, match_pct, skills_all, learning_priority⟩

/-- `analyze_skill_gap`: resolve the role (falling back to the first index
entry, else the name `"Unknown"`), look its row up, build and classify the
top terms, compute the match percentage and the gap-priority list. -/
def analyze_skill_gap (req : SkillGapRequest) (feature_names : List String)
    (tfidf_rows : List (List ℚ)) (role_index : List String) :
    Except String SkillGapResponse :=
  match py_index (resolve_role_name req.target_role role_index) role_index with
  | .error e => .error e
  | .ok role_idx =>
    match tfidf_rows[role_idx]? with
    | none => .error "IndexError"
    | some row =>
      match build_top_terms feature_names row (top_term_indices row) with
      | .error e => .error e
      | .ok top_terms =>
        if top_terms.isEmpty then
          .ok ⟨resolve_role_name req.target_role role_index, 0, [], []⟩
        else
          .ok (build_response (resolve_role_name req.target_role role_index)
            req.current_skills top_terms)

/-! ## Clustering adjacency (`app/models/clustering_inference.py`)

`sklearn.metrics.pairwise.cosine_similarity` is an external numeric
routine (spec §1): it enters `get_adjacent_roles` as the opaque capability
`cos_sim` applied to the target row and each matrix row.  The four
registry structures are index-aligned for the registry's lifetime
(spec §3), so row lookups at resolved indices use positional defaults. -/

/-- One entry of the cluster role index (`{role, posting_count}`). -/
structure RoleEntry where
  role : String
  posting_count : ℤ

/-- `AdjacentRole`. -/
structure AdjacentRole where
  role : String
  similarity : ℚ
  cluster_id : ℤ
deriving DecidableEq

/-- `AdjacentRolesResponse`. -/
structure AdjacentRolesResponse where
  query_role : String
  cluster_id : ℤ
  adjacent_roles : List AdjacentRole
deriving DecidableEq

/-- `cosine_similarity(feature_matrix[i:i+1], feature_matrix).flatten()`:
the opaque similarity of the target row against every row. -/
def role_sims (cos_sim : List ℚ → List ℚ → ℚ) (feature_matrix : List (List ℚ))
    (target_idx : ℕ) : List ℚ :=
  feature_matrix.map (fun rowj => cos_sim (feature_matrix.getD target_idx []) rowj)

/-- The adjacency loop over `np.argsort(sims)[::-1]`: reverse the
ascending index list returned by the library, skip the target index,
append until 10 entries are collected. -/
def adjacent_indices (sorted_asc : List ℕ) (target_idx : ℕ) : List ℕ :=
  ((sorted_asc.reverse).filter (fun idx => idx != target_idx)).take 10

/-- `get_adjacent_roles`: resolve the slug to the first matching index,
rank all rows by the opaque cosine similarity against the target row,
excluding the target and keeping the top 10.  `np.argsort` is the
external library's routine; it enters as the parameter `np_argsort`
(constrained by `is_argsort_of` where a theorem needs its contract). -/
def get_adjacent_roles (cos_sim : List ℚ → List ℚ → ℚ) (np_argsort : List ℚ → List ℕ)
    (slug : String) (labels : List ℤ) (role_index : List RoleEntry)
    (feature_matrix : List (List ℚ)) : Option AdjacentRolesResponse :=
  match role_index.findIdx? (fun e => slugify e.role == slug) with
  | none => none
  | some target_idx =>
    let sims := role_sims cos_sim feature_matrix target_idx
    some ⟨(role_index.getD target_idx ⟨"", 0⟩).role, labels.getD target_idx 0,
      (adjacent_indices (np_argsort sims) target_idx).map (fun idx =>
        AdjacentRole.mk (role_index.getD idx ⟨"", 0⟩).role
          (py_round_to 4 (sims.getD idx 0)) (labels.getD idx 0))⟩

/-- A concrete instance of the opaque cosine-similarity capability used on
concrete inputs: the dot product, which agrees with cosine similarity on
unit-norm rows. -/
def dot_sim (a b : List ℚ) : ℚ := (List.zipWith (fun x y => x * y) a b).sum

/-! ## Remaining middleware helpers and the concrete 40-call scenario -/

/-- `classify_endpoint`. -/
def classify_endpoint (method path : String) : EndpointClass :=
  if method == "POST" && path == "/api/v1/salary/predict" then .predict
  else if method == "POST" && path == "/api/v1/skill-gap/analyze" then .skill_gap
  else if method == "GET" && path == "/api/v1/salary/metadata" then .metadata
  else .lookup

/-- `endpoint_limit_for` at the `app/config.py` defaults. -/
def endpoint_limit_for : EndpointClass → ℕ
  | .predict => 40
  | .skill_gap => 20
  | .metadata => 180
  | .lookup => 240

/-- Timestamps `0, 1, ..., k-1` of the first `k` calls of the 40-call
`predict` scenario. -/
def predict_example_times (k : ℕ) : List ℚ := (List.range k).map (fun n : ℕ => (n : ℚ))

/-- The remaining requests of the 40-call scenario, starting from call `k`:
one `predict` call per second from one identity. -/
def predict_example_reqs (k : ℕ) : List (String × EndpointClass × ℚ) :=
  (List.range' k (40 - k)).map (fun n : ℕ => ("c", EndpointClass.predict, (n : ℚ)))

/-- The bucket state after the first `k` admitted calls of the scenario. -/
def predict_example_buckets (k : ℕ) : Buckets :=
  [(("c", Scope.endpoint .predict), predict_example_times k),
   (("c", Scope.global), predict_example_times k)]

/-- The decision returned to the 41st call of the scenario. -/
def predict_example_result : RateLimitResult := ⟨false, "route", 40, 0, 3560, 3600⟩

/-! # Theorems -/

/-! ## Rounding facts -/

theorem py_round_le (x : ℚ) : py_round x ≤ ⌊x⌋ + 1 := by
  unfold py_round; split_ifs <;> omega

theorem le_py_round (x : ℚ) : ⌊x⌋ ≤ py_round x := by
  unfold py_round; split_ifs <;> omega

theorem py_round_mono {x y : ℚ} (h : x ≤ y) : py_round x ≤ py_round y := by
  rcases lt_or_le ⌊x⌋ ⌊y⌋ with hf | hf
  · calc py_round x ≤ ⌊x⌋ + 1 := py_round_le x
      _ ≤ ⌊y⌋ := by omega
      _ ≤ py_round y := le_py_round y
  · have hfe : ⌊x⌋ = ⌊y⌋ := le_antisymm (Int.floor_mono h) hf
    have hr : x - (⌊y⌋ : ℚ) ≤ y - (⌊y⌋ : ℚ) := sub_le_sub_right h _
    unfold py_round
    rw [hfe]
    split_ifs <;> first | omega | linarith

theorem py_round_intCast (n : ℤ) : py_round (n : ℚ) = n := by
  unfold py_round
  rw [Int.floor_intCast, sub_self]
  norm_num

theorem int_cast_le_py_round {n : ℤ} {x : ℚ} (h : (n : ℚ) ≤ x) : n ≤ py_round x := by
  have := py_round_mono h
  rwa [py_round_intCast] at this

theorem py_round_le_int_cast {n : ℤ} {x : ℚ} (h : x ≤ (n : ℚ)) : py_round x ≤ n := by
  have := py_round_mono h
  rwa [py_round_intCast] at this

theorem py_round_to_mono (nd : ℕ) {x y : ℚ} (h : x ≤ y) :
    py_round_to nd x ≤ py_round_to nd y := by
  unfold py_round_to
  have hp : (0 : ℚ) < 10 ^ nd := by positivity
  have h1 := py_round_mono (mul_le_mul_of_nonneg_right h hp.le)
  exact (div_le_div_iff_of_pos_right hp).mpr (by exact_mod_cast h1)

theorem py_round_to_tenth : py_round_to 3 (1/10 : ℚ) = 1/10 := by
  with_unfolding_all decide

theorem py_round_to_one : py_round_to 3 (1 : ℚ) = 1 := by
  with_unfolding_all decide

/-! ## C1: salary response bounds -/

/-- Claim C1: for every salary prediction request served by the pipeline
(whatever the opaque predictors return), the response satisfies
`20000 ≤ lower_bound ≤ predicted_salary ≤ upper_bound ≤ 500000` and
`0.1 ≤ confidence ≤ 1.0`, where the predicted salary is the clamped
median, the lower bound the clamped P10 and the upper bound the clamped
P90. -/
theorem salary_response_bounds (req : SalaryPredictionRequest)
    (q50 q10 q90 : ℚ) (vocab : Option (List String))
    (meta : Option CompanyScaleMeta) (prem : Option PremiumTable) :
    (20000 ≤ (predict_salary req q50 q10 q90 vocab meta prem).lower_bound ∧
      (predict_salary req q50 q10 q90 vocab meta prem).lower_bound ≤
        (predict_salary req q50 q10 q90 vocab meta prem).predicted_salary ∧
      (predict_salary req q50 q10 q90 vocab meta prem).predicted_salary ≤
        (predict_salary req q50 q10 q90 vocab meta prem).upper_bound ∧
      (predict_salary req q50 q10 q90 vocab meta prem).upper_bound ≤ 500000) ∧
    (1/10 ≤ (predict_salary req q50 q10 q90 vocab meta prem).confidence ∧
      (predict_salary req q50 q10 q90 vocab meta prem).confidence ≤ 1) := by
  dsimp only [predict_salary]
  set b := apply_premiums req.title (resolve_known_skills req.skills vocab)
    (resolve_company_scale_tier req meta).1 q50 q10 q90 prem with hb
  set m := max (20000 : ℚ) (min 500000 b.1) with hm
  set lo := max (20000 : ℚ) (min m b.2.1) with hlo
  set hi := max m (min 500000 b.2.2.1) with hhi
  set c := max (1/10 : ℚ) (min 1 (1 - (hi - lo) / max m 1 * (1/2))) with hc
  have h20m : (20000 : ℚ) ≤ m := le_max_left _ _
  have hm5 : m ≤ 500000 := max_le (by norm_num) (min_le_left _ _)
  have h20lo : (20000 : ℚ) ≤ lo := le_max_left _ _
  have hlom : lo ≤ m := max_le h20m (min_le_left _ _)
  have hmhi : m ≤ hi := le_max_left _ _
  have hhi5 : hi ≤ 500000 := max_le hm5 (min_le_left _ _)
  have hc1 : (1/10 : ℚ) ≤ c := le_max_left _ _
  have hc2 : c ≤ 1 := max_le (by norm_num) (min_le_left _ _)
  refine ⟨⟨?_, ?_, ?_, ?_⟩, ?_, ?_⟩
  · exact int_cast_le_py_round (by exact_mod_cast h20lo)
  · exact py_round_mono hlom
  · exact py_round_mono hmhi
  · exact py_round_le_int_cast (by exact_mod_cast hhi5)
  · rw [← py_round_to_tenth]
    exact py_round_to_mono 3 hc1
  · rw [← py_round_to_one]
    exact py_round_to_mono 3 hc2

/-! ## C3: concurrency gate permits -/

/-- Claim C3: under the cooperative scheduler, a request entering the
concurrency gate with `in_use ≤ pool size` permits held never drives the
held count above the pool size (`max 1 ml_max_concurrent`), and whether the
downstream handler returns or raises, the count after the request equals
the count before acquisition. -/
theorem infer_gate_permit_invariant {α : Type} (cfg in_use : ℕ) (handler : Except String α)
    (hin : in_use ≤ max 1 cfg) :
    (∀ n ∈ (infer_gate cfg in_use handler).2.2, n ≤ max 1 cfg) ∧
    (infer_gate cfg in_use handler).2.1 = in_use := by
  unfold infer_gate
  set P := max 1 cfg with hP
  by_cases hsat : P ≤ in_use
  · rw [if_pos hsat]
    constructor
    · intro n hn
      simp only [List.mem_singleton] at hn
      omega
    · rfl
  · rw [if_neg hsat]
    have hlt : in_use < P := lt_of_not_le hsat
    cases handler with
    | ok r =>
      dsimp only
      constructor
      · intro n hn
        simp only [List.mem_cons, List.not_mem_nil, or_false] at hn
        rcases hn with rfl | rfl | rfl <;> omega
      · omega
    | error e =>
      dsimp only
      constructor
      · intro n hn
        simp only [List.mem_cons, List.not_mem_nil, or_false] at hn
        rcases hn with rfl | rfl | rfl <;> omega
      · omega

theorem infer_gate_permit_invariant_witness :
    (0 : ℕ) ≤ max 1 ml_max_concurrent_infer ∧
    (infer_gate ml_max_concurrent_infer 0 (Except.ok (0 : ℕ))).2.1 = 0 :=
  ⟨by decide, (infer_gate_permit_invariant ml_max_concurrent_infer 0 (Except.ok 0) (by decide)).2⟩

/-! ## C4: auth with no configured secret -/

/-- Claim C4 counterexample: with the auth-required flag disabled and no
secret configured, a request to a non-health API path passes through
instead of receiving `503 ml_unavailable`. -/
theorem auth_no_secret_counterexample :
    ml_service_auth_middleware ⟨false, ""⟩ "/api/v1/salary/predict" (some "whatever") =
      AuthDecision.passthrough ∧
    ml_service_auth_middleware ⟨false, ""⟩ "/api/v1/salary/predict" (some "whatever") ≠
      AuthDecision.reject 503 "ml_unavailable" := by
  with_unfolding_all decide

/-- Claim C4 (amended): when the auth-required flag is enabled, a request
to a non-health API path with no shared secret configured is answered
`503 ml_unavailable`, regardless of the supplied credential header. -/
theorem auth_no_secret_503 (cfg : AuthConfig) (path : String) (header : Option String)
    (hapi : py_startswith path "/api/v1" = true) (hhealth : path ≠ "/api/v1/health")
    (hreq : cfg.ml_service_auth_required = true) (hkey : cfg.ml_service_key = "") :
    ml_service_auth_middleware cfg path header = .reject 503 "ml_unavailable" := by
  have h1 : (path == "/api/v1/health") = false := beq_eq_false_iff_ne.mpr hhealth
  simp [ml_service_auth_middleware, hapi, h1, hreq, hkey]

theorem auth_no_secret_503_witness :
    py_startswith "/api/v1/clusters" "/api/v1" = true ∧
    ml_service_auth_middleware ⟨true, ""⟩ "/api/v1/clusters" (some "anything") =
      .reject 503 "ml_unavailable" :=
  ⟨by with_unfolding_all decide,
   auth_no_secret_503 ⟨true, ""⟩ "/api/v1/clusters" (some "anything")
     (by with_unfolding_all decide) (by decide) rfl rfl⟩

/-! ## C8: credential comparison -/

/-- Claim C8 counterexample: with secret `"sekret"` configured, the
supplied header value `"sekret "` differs from the secret as a string yet
the request passes through (the gate strips the header first). -/
theorem auth_exact_match_counterexample :
    "sekret " ≠ "sekret" ∧
    ml_service_auth_middleware ⟨true, "sekret"⟩ "/api/v1/clusters" (some "sekret ") =
      AuthDecision.passthrough := by
  with_unfolding_all decide

/-- Claim C8 (amended): when a secret is configured and the path requires
auth, the gate compares the whitespace-stripped supplied header value with
the secret: a stripped mismatch is rejected `401 unauthorized`, a stripped
match passes through. -/
theorem auth_stripped_match_spec (cfg : AuthConfig) (path : String) (header : Option String)
    (hapi : py_startswith path "/api/v1" = true) (hhealth : path ≠ "/api/v1/health")
    (hreq : cfg.ml_service_auth_required = true) (hkey : cfg.ml_service_key ≠ "") :
    (py_strip (header.getD "") ≠ cfg.ml_service_key →
      ml_service_auth_middleware cfg path header = .reject 401 "unauthorized") ∧
    (py_strip (header.getD "") = cfg.ml_service_key →
      ml_service_auth_middleware cfg path header = .passthrough) := by
  have h1 : (path == "/api/v1/health") = false := beq_eq_false_iff_ne.mpr hhealth
  have h2 : (cfg.ml_service_key == "") = false := beq_eq_false_iff_ne.mpr hkey
  constructor
  · intro hne
    have h3 : (py_strip (header.getD "") != cfg.ml_service_key) = true := bne_iff_ne.mpr hne
    simp [ml_service_auth_middleware, hapi, h1, hreq, h2, h3]
  · intro heq
    have h3 : (py_strip (header.getD "") != cfg.ml_service_key) = false := by
      simp [bne, heq]
    simp [ml_service_auth_middleware, hapi, h1, hreq, h2, h3]

theorem auth_stripped_match_spec_witness :
    ml_service_auth_middleware ⟨true, "k"⟩ "/api/v1/clusters" (some " k ") = .passthrough ∧
    ml_service_auth_middleware ⟨true, "k"⟩ "/api/v1/clusters" (some "x") =
      .reject 401 "unauthorized" :=
  ⟨(auth_stripped_match_spec ⟨true, "k"⟩ "/api/v1/clusters" (some " k ")
      (by with_unfolding_all decide) (by decide) rfl (by decide)).2
      (by with_unfolding_all decide),
   (auth_stripped_match_spec ⟨true, "k"⟩ "/api/v1/clusters" (some "x")
      (by with_unfolding_all decide) (by decide) rfl (by decide)).1
      (by with_unfolding_all decide)⟩

/-! ## C5: premium clamp -/

theorem clamp_abs_le {A d : ℚ} (hA : 0 ≤ A) : |max (-A) (min A d)| ≤ A :=
  abs_le.mpr ⟨le_max_left _ _, max_le (by linarith) (min_le_left _ _)⟩

theorem add_clamp_sub_abs_le {m d A : ℚ} (hA : 0 ≤ A) :
    |m + max (-A) (min A d) - m| ≤ A := by
  have h : m + max (-A) (min A d) - m = max (-A) (min A d) := by ring
  rw [h]
  exact clamp_abs_le hA

/-- Claim C5 counterexample: a premium table with a negative absolute clamp
bound (`max_absolute_adjustment = -1`) yields an applied delta of 1 on a
median of 100, exceeding `min(max_absolute, max_ratio * |median|) = -1`. -/
theorem premium_clamp_counterexample :
    ((apply_premiums "r" [] "mid" 100 90 110 (some ⟨[], [], [], [], 1, 1, 1, -1⟩)).1 - 100 = 1) ∧
    ¬(|(apply_premiums "r" [] "mid" 100 90 110 (some ⟨[], [], [], [], 1, 1, 1, -1⟩)).1 - 100| ≤
        min (-1 : ℚ) (1 * |(100 : ℚ)|)) := by
  with_unfolding_all decide

/-- Claim C5 (amended): for every premium table whose clamp parameters are
nonnegative (as the trained artifacts' are), the adjustment actually added
to the median has magnitude at most
`min(max_absolute, max_ratio * |unadjusted median|)`, and P10 and P90
receive exactly the same adjustment. -/
theorem premium_clamp_bound (role_title : String) (selected_skills : List String)
    (company_tier : String) (m p10 p90 : ℚ) (t : PremiumTable)
    (habs : 0 ≤ t.max_absolute_adjustment) (hfrac : 0 ≤ t.max_adjustment_fraction) :
    |(apply_premiums role_title selected_skills company_tier m p10 p90 (some t)).1 - m| ≤
      min t.max_absolute_adjustment (t.max_adjustment_fraction * |m|) ∧
    (apply_premiums role_title selected_skills company_tier m p10 p90 (some t)).2.1 - p10 =
      (apply_premiums role_title selected_skills company_tier m p10 p90 (some t)).1 - m ∧
    (apply_premiums role_title selected_skills company_tier m p10 p90 (some t)).2.2.1 - p90 =
      (apply_premiums role_title selected_skills company_tier m p10 p90 (some t)).1 - m := by
  dsimp only [apply_premiums]
  refine ⟨?_, by ring, by ring⟩
  have hA : 0 ≤ min t.max_absolute_adjustment (|m| * t.max_adjustment_fraction) :=
    le_min habs (mul_nonneg (abs_nonneg m) hfrac)
  rw [mul_comm t.max_adjustment_fraction |m|]
  exact add_clamp_sub_abs_le hA

theorem premium_clamp_bound_witness :
    (0 : ℚ) ≤ 60000 ∧
    |(apply_premiums "data scientist" ["SQL"] "mid" 100000 80000 120000
        (some ⟨[], [("skill_SQL", 5000)], [], [("mid", 1000)], 1, 1, 35/100, 60000⟩)).1 -
      100000| ≤ min (60000 : ℚ) ((35/100) * |(100000 : ℚ)|) :=
  ⟨by norm_num,
   (premium_clamp_bound "data scientist" ["SQL"] "mid" 100000 80000 120000
      ⟨[], [("skill_SQL", 5000)], [], [("mid", 1000)], 1, 1, 35/100, 60000⟩
      (by norm_num) (by norm_num)).1⟩

/-! ## C10: empty role index -/

theorem py_index_ok_of_mem {x : String} {l : List String} (h : x ∈ l) :
    ∃ i, py_index x l = .ok i ∧ i < l.length := by
  induction l with
  | nil => cases h
  | cons y rest ih =>
    by_cases hy : (y == x) = true
    · exact ⟨0, by simp [py_index, hy], by simp⟩
    · have hx : x ∈ rest := by
        rcases List.mem_cons.mp h with he | h'
        · exact absurd (by simp [he]) hy
        · exact h'
      obtain ⟨i, hi, hlen⟩ := ih hx
      refine ⟨i + 1, by simp [py_index, hy, hi, Except.map], by simp; omega⟩

theorem build_top_terms_ok {names : List String} (row : List ℚ) {idxs : List ℕ}
    (h : ∀ i ∈ idxs, i < names.length) :
    ∃ ts, build_top_terms names row idxs = .ok ts := by
  induction idxs with
  | nil => exact ⟨[], rfl⟩
  | cons i rest ih =>
    have hi : i < names.length := h i (List.mem_cons_self _ _)
    obtain ⟨ts, hts⟩ := ih (fun j hj => h j (List.mem_cons_of_mem _ hj))
    refine ⟨(names.get ⟨i, hi⟩, row.getD i 0) :: ts, ?_⟩
    simp [build_top_terms, List.getElem?_eq_getElem hi, hts, Except.map]

theorem mem_argsort_lt {xs : List ℚ} {i : ℕ} (h : i ∈ argsort xs) : i < xs.length := by
  have hp : (argsort xs).Perm (List.range xs.length) := List.mergeSort_perm _ _
  exact List.mem_range.mp (hp.mem_iff.mp h)

theorem mem_top_term_indices {row : List ℚ} {i : ℕ} (h : i ∈ top_term_indices row) :
    i < row.length := by
  unfold top_term_indices at h
  have h1 := List.mem_of_mem_filter h
  have h2 : i ∈ (argsort row).reverse := List.take_subset _ _ h1
  exact mem_argsort_lt (List.mem_reverse.mp h2)

/-- Claim C10: with index-aligned artifacts (a TF-IDF row for every indexed
role, and a feature name for every row column), `analyze_skill_gap` raises
exactly when the role index is empty: the unresolved-role fallback then
produces the name `"Unknown"`, whose index lookup in the empty list is a
`ValueError`; with a nonempty index every lookup succeeds. -/
theorem empty_role_index_error_iff (req : SkillGapRequest) (names : List String)
    (rows : List (List ℚ)) (roles : List String)
    (hrows : roles.length ≤ rows.length)
    (hnames : ∀ r ∈ rows, r.length ≤ names.length) :
    except_is_error (analyze_skill_gap req names rows roles) = true ↔ roles = [] := by
  constructor
  · intro herr
    by_contra hne
    obtain ⟨r0, rest, rfl⟩ := List.exists_cons_of_ne_nil hne
    have hmem : resolve_role_name req.target_role (r0 :: rest) ∈ (r0 :: rest) := by
      unfold resolve_role_name
      cases hf : find_role req.target_role (r0 :: rest) with
      | some r =>
        dsimp only
        unfold find_role at hf
        exact List.mem_of_find?_eq_some hf
      | none => simp
    obtain ⟨i, hi, hilen⟩ := py_index_ok_of_mem hmem
    have hirows : i < rows.length := lt_of_lt_of_le hilen hrows
    have hrow : rows[i]? = some rows[i] := List.getElem?_eq_getElem hirows
    have hb : ∀ j ∈ top_term_indices rows[i], j < names.length := by
      intro j hj
      exact lt_of_lt_of_le (mem_top_term_indices hj)
        (hnames rows[i] (List.getElem_mem hirows))
    obtain ⟨ts, hts⟩ := build_top_terms_ok rows[i] hb
    unfold analyze_skill_gap at herr
    simp only [hi, hrow, hts] at herr
    split at herr <;> simp [except_is_error] at herr
  · intro h
    subst h
    rfl

theorem empty_role_index_error_iff_witness :
    ([] : List String).length ≤ ([[(1 : ℚ)]]).length ∧
    except_is_error (analyze_skill_gap ⟨["a"], "x"⟩ ["t"] [[(1 : ℚ)]] []) = true :=
  ⟨by decide,
   (empty_role_index_error_iff ⟨["a"], "x"⟩ ["t"] [[(1 : ℚ)]] [] (by decide)
     (by intro r hr; simp at hr; subst hr; decide)).mpr rfl⟩

/-! ## C9: skill-gap percentage and learning priority -/

theorem py_round_to_zero : py_round_to 1 (0 : ℚ) = 0 := by
  with_unfolding_all decide

theorem py_round_to_hundred : py_round_to 1 (100 : ℚ) = 100 := by
  with_unfolding_all decide

theorem argsort_le_trans (xs : List ℚ) : ∀ a b c, argsort_le xs a b = true →
    argsort_le xs b c = true → argsort_le xs a c = true := by
  intro a b c hab hbc
  simp only [argsort_le, decide_eq_true_eq] at hab hbc ⊢
  rcases hab with h1 | ⟨h1, h2⟩ <;> rcases hbc with h3 | ⟨h3, h4⟩
  · exact Or.inl (lt_trans h1 h3)
  · exact Or.inl (lt_of_lt_of_eq h1 h3)
  · exact Or.inl (lt_of_eq_of_lt h1 h3)
  · exact Or.inr ⟨h1.trans h3, le_trans h2 h4⟩

theorem argsort_le_total (xs : List ℚ) : ∀ a b,
    (argsort_le xs a b || argsort_le xs b a) = true := by
  intro a b
  simp only [argsort_le, Bool.or_eq_true, decide_eq_true_eq]
  rcases lt_trichotomy (xs.getD a 0) (xs.getD b 0) with h | h | h
  · exact Or.inl (Or.inl h)
  · rcases Nat.le_total a b with hab | hab
    · exact Or.inl (Or.inr ⟨h, hab⟩)
    · exact Or.inr (Or.inr ⟨h.symm, hab⟩)
  · exact Or.inr (Or.inl h)

theorem argsort_pairwise (xs : List ℚ) :
    (argsort xs).Pairwise (fun i j => argsort_le xs i j = true) :=
  List.sorted_mergeSort (argsort_le_trans xs) (argsort_le_total xs) _

theorem top_term_indices_pairwise (row : List ℚ) :
    (top_term_indices row).Pairwise (fun i j => argsort_le row j i = true) := by
  have h1 : ((argsort row).reverse).Pairwise (fun i j => argsort_le row j i = true) :=
    List.pairwise_reverse.mpr (argsort_pairwise row)
  exact List.Pairwise.sublist
    ((List.filter_sublist _).trans (List.take_sublist _ _)) h1

theorem top_term_scores_pairwise (row : List ℚ) :
    ((top_term_indices row).map (fun i => row.getD i 0)).Pairwise (fun a b => b ≤ a) := by
  rw [List.pairwise_map]
  apply (top_term_indices_pairwise row).imp
  intro i j hji
  simp only [argsort_le, decide_eq_true_eq] at hji
  rcases hji with h | ⟨h, _⟩
  · exact h.le
  · exact h.le

theorem build_top_terms_snd {names : List String} {row : List ℚ} :
    ∀ {idxs : List ℕ} {ts : List (String × ℚ)},
      build_top_terms names row idxs = .ok ts →
      ts.map Prod.snd = idxs.map (fun i => row.getD i 0) := by
  intro idxs
  induction idxs with
  | nil =>
    intro ts h
    simp only [build_top_terms] at h
    cases h
    rfl
  | cons i rest ih =>
    intro ts h
    simp only [build_top_terms] at h
    cases hn : names[i]? with
    | none => rw [hn] at h; exact absurd h (by simp)
    | some n =>
      rw [hn] at h
      cases hr : build_top_terms names row rest with
      | error e => rw [hr] at h; exact absurd h (by simp [Except.map])
      | ok ts' =>
        rw [hr] at h
        simp only [Except.map, Except.ok.injEq] at h
        subst h
        simp [ih hr]

theorem build_top_terms_pos {names : List String} {row : List ℚ} {ts : List (String × ℚ)}
    (h : build_top_terms names row (top_term_indices row) = .ok ts) :
    ∀ t ∈ ts, 0 < t.2 := by
  intro t ht
  have hsnd := build_top_terms_snd h
  have hm : t.2 ∈ ts.map Prod.snd := List.mem_map_of_mem _ ht
  rw [hsnd] at hm
  obtain ⟨i, hi, he⟩ := List.mem_map.mp hm
  have hfi : i ∈ (((argsort row).reverse).take 30).filter
      (fun i => decide (0 < row.getD i 0)) := hi
  have := (List.mem_filter.mp hfi).2
  rw [← he]
  exact of_decide_eq_true this

theorem ts_snd_pairwise {names : List String} {row : List ℚ} {ts : List (String × ℚ)}
    (h : build_top_terms names row (top_term_indices row) = .ok ts) :
    ts.Pairwise (fun t u => u.2 ≤ t.2) := by
  have hsnd := build_top_terms_snd h
  have hp := top_term_scores_pairwise row
  rw [← hsnd] at hp
  exact List.pairwise_map.mp hp

theorem classify_terms_pairwise {cs : List String} {ts : List (String × ℚ)}
    {max_score : ℚ} (hmax : 0 < max_score)
    (hts : ts.Pairwise (fun t u => u.2 ≤ t.2)) :
    (classify_terms cs ts max_score).Pairwise
      (fun a b => b.importance ≤ a.importance) := by
  unfold classify_terms
  rw [List.pairwise_map]
  apply hts.imp
  intro t u h
  have hd : u.2 / max_score ≤ t.2 / max_score :=
    (div_le_div_iff_of_pos_right hmax).mpr h
  have hr := py_round_to_mono 3 hd
  by_cases h1 : cs.any (fun us => fuzzy_match us t.1) <;>
    by_cases h2 : cs.any (fun us => fuzzy_match us u.1) <;>
      simp [h1, h2, hr]

theorem append_bonuses_filter_keep (p : SkillDetail → Bool)
    (hp : ∀ us : String, p ⟨us, 0, "bonus"⟩ = false)
    (cs : List String) (acc : List SkillDetail) :
    (append_bonuses cs acc).filter p = acc.filter p := by
  induction cs generalizing acc with
  | nil => rfl
  | cons us rest ih =>
    unfold append_bonuses
    by_cases hc : acc.any (fun s => fuzzy_match us s.skill)
    · rw [if_pos hc]
      exact ih acc
    · rw [if_neg hc, ih]
      simp [List.filter_append, hp us]

theorem classify_terms_length (cs : List String) (ts : List (String × ℚ)) (m : ℚ) :
    (classify_terms cs ts m).length = ts.length := by
  simp [classify_terms]

theorem classify_terms_filter_nonbonus (cs : List String) (ts : List (String × ℚ))
    (m : ℚ) :
    (classify_terms cs ts m).filter (fun s => s.status != "bonus") =
      classify_terms cs ts m := by
  rw [List.filter_eq_self]
  intro x hx
  unfold classify_terms at hx
  rcases List.mem_map.mp hx with ⟨t, ht, rfl⟩
  by_cases h1 : cs.any (fun us => fuzzy_match us t.1) <;> simp [h1]

theorem append_bonuses_filter_gap (cs : List String) (acc : List SkillDetail) :
    (append_bonuses cs acc).filter (fun s => s.status == "gap") =
      acc.filter (fun s => s.status == "gap") := by
  induction cs generalizing acc with
  | nil => rfl
  | cons us rest ih =>
    unfold append_bonuses
    by_cases hc : acc.any (fun s => fuzzy_match us s.skill)
    · rw [if_pos hc]
      exact ih acc
    · rw [if_neg hc, ih]
      simp [List.filter_append]

/-- Claim C9 counterexample: for a role with three positive top terms of
which the user matches one, the returned match percentage is
`round(100/3, 1) = 33.3`, not the exact `matched/total*100 = 100/3` the
claim states. -/
theorem skill_gap_pct_rounding_counterexample :
    (analyze_skill_gap ⟨["cc"], "r"⟩ ["aa", "bb", "cc"] [[1, 1, 1]] ["r"]).map
      (fun r => (r.match_percentage,
        (r.skills.filter (fun s => s.status == "matched")).length,
        (r.skills.filter (fun s => s.status != "bonus")).length))
      = .ok (333/10, 1, 3) ∧
    ((1 : ℚ) / 3) * 100 ≠ 333/10 := by
  with_unfolding_all decide

/-- Claim C9 (amended): whenever `analyze_skill_gap` returns a response,
the match percentage lies in `[0, 100]` and equals
`matched_count / total_top_terms * 100` rounded to one decimal — with
`matched_count` the number of `matched`-status skills and
`total_top_terms` the number of non-`bonus` skills of the response (the
classified top terms); it is 0 when there are no top terms; and
`learning_priority` is exactly the `gap`-status skills in descending
order of their normalized importance. -/
theorem skill_gap_analysis_spec (req : SkillGapRequest) (names : List String)
    (rows : List (List ℚ)) (roles : List String) (resp : SkillGapResponse)
    (h : analyze_skill_gap req names rows roles = .ok resp) :
    (0 ≤ resp.match_percentage ∧ resp.match_percentage ≤ 100) ∧
    resp.match_percentage =
      py_round_to 1 ((((resp.skills.filter (fun s => s.status == "matched")).length : ℚ) /
        ((resp.skills.filter (fun s => s.status != "bonus")).length : ℚ)) * 100) ∧
    ((resp.skills.filter (fun s => s.status != "bonus")).length = 0 →
      resp.match_percentage = 0) ∧
    resp.learning_priority =
      (resp.skills.filter (fun s => s.status == "gap")).map (fun s => s.skill) ∧
    ((resp.skills.filter (fun s => s.status == "gap")).map
      (fun s => s.importance)).Pairwise (fun a b => b ≤ a) := by
  unfold analyze_skill_gap at h
  cases hpi : py_index (resolve_role_name req.target_role roles) roles with
  | error e => rw [hpi] at h; exact absurd h (by simp)
  | ok i =>
    rw [hpi] at h
    dsimp only at h
    cases hrow : rows[i]? with
    | none => rw [hrow] at h; exact absurd h (by simp)
    | some row =>
      rw [hrow] at h
      dsimp only at h
      cases hb : build_top_terms names row (top_term_indices row) with
      | error e => rw [hb] at h; exact absurd h (by simp)
      | ok ts =>
        rw [hb] at h
        dsimp only at h
        by_cases hemp : ts.isEmpty = true
        · rw [if_pos hemp] at h
          cases h
          refine ⟨⟨by norm_num, by norm_num⟩, by simp [py_round_to_zero],
            fun h0 => rfl, by simp, by simp⟩
        · rw [if_neg hemp] at h
          cases h
          have hne : ts ≠ [] := by
            cases ts with
            | nil => exact absurd rfl hemp
            | cons a l => exact List.cons_ne_nil a l
          have hdesc : ts.Pairwise (fun t u => u.2 ≤ t.2) := ts_snd_pairwise hb
          have hpos : ∀ t ∈ ts, 0 < t.2 := build_top_terms_pos hb
          have hmax : 0 < (ts.headD ("", 1)).2 := by
            cases ts with
            | nil => exact absurd rfl hne
            | cons a l => exact hpos a (List.mem_cons_self a l)
          have hclass := @classify_terms_pairwise req.current_skills ts ((ts.headD ("", 1)).2) hmax hdesc
          have hgap : ((classify_terms req.current_skills ts ((ts.headD ("", 1)).2)).filter
              (fun s => s.status == "gap")).Pairwise
              (fun a b => b.importance ≤ a.importance) :=
            List.Pairwise.sublist (List.filter_sublist _) hclass
          unfold build_response
          dsimp only
          refine ⟨?_, ?_, ?_, ?_, ?_⟩
          · -- percentage bounds
            have hmc : ((classify_terms req.current_skills ts ((ts.headD ("", 1)).2)).filter
                (fun s => s.status == "matched")).length ≤ ts.length := by
              calc ((classify_terms req.current_skills ts ((ts.headD ("", 1)).2)).filter
                  (fun s => s.status == "matched")).length
                  ≤ (classify_terms req.current_skills ts ((ts.headD ("", 1)).2)).length :=
                    List.length_filter_le _ _
                _ = ts.length := by simp [classify_terms]
            have hlen : 0 < ts.length := List.length_pos.mpr hne
            have hlenq : (0 : ℚ) < (ts.length : ℚ) := by exact_mod_cast hlen
            have h0 : (0 : ℚ) ≤ (((classify_terms req.current_skills ts
                ((ts.headD ("", 1)).2)).filter (fun s => s.status == "matched")).length : ℚ) /
                (ts.length : ℚ) * 100 := by positivity
            have h1 : (((classify_terms req.current_skills ts
                ((ts.headD ("", 1)).2)).filter (fun s => s.status == "matched")).length : ℚ) /
                (ts.length : ℚ) * 100 ≤ 100 := by
              have hq : (((classify_terms req.current_skills ts
                  ((ts.headD ("", 1)).2)).filter (fun s => s.status == "matched")).length : ℚ) /
                  (ts.length : ℚ) ≤ 1 := by
                rw [div_le_one hlenq]
                exact_mod_cast hmc
              calc _ ≤ (1 : ℚ) * 100 := mul_le_mul_of_nonneg_right hq (by norm_num)
                _ = 100 := by norm_num
            constructor
            · have h2 := py_round_to_mono 1 h0
              rwa [py_round_to_zero] at h2
            · have h2 := py_round_to_mono 1 h1
              rwa [py_round_to_hundred] at h2
          · -- match percentage equals matched/total*100 rounded to one decimal
            rw [append_bonuses_filter_keep (fun s => s.status == "matched")
                  (fun us => rfl),
              append_bonuses_filter_keep (fun s => s.status != "bonus")
                  (fun us => rfl),
              classify_terms_filter_nonbonus, classify_terms_length]
          · -- no top terms cannot happen in this branch
            intro h0
            exfalso
            rw [append_bonuses_filter_keep (fun s => s.status != "bonus")
                  (fun us => rfl),
              classify_terms_filter_nonbonus, classify_terms_length] at h0
            exact absurd h0 (Nat.pos_iff_ne_zero.mp (List.length_pos.mpr hne))
          · -- learning priority equals the gap skills in order
            rw [append_bonuses_filter_gap]
            have hsorted : (((classify_terms req.current_skills ts
                ((ts.headD ("", 1)).2)).filter (fun s => s.status == "gap")).map
                (fun s => (s.skill, s.importance))).Pairwise
                (fun a b => (decide (b.2 ≤ a.2)) = true) := by
              rw [List.pairwise_map]
              apply hgap.imp
              intro a b hab
              exact decide_eq_true hab
            rw [List.mergeSort_of_sorted hsorted, List.map_map]
            rfl
          · -- importances descending
            rw [append_bonuses_filter_gap, List.pairwise_map]
            exact hgap

theorem skill_gap_analysis_spec_witness :
    analyze_skill_gap ⟨["b"], "r"⟩ ["a", "b"] [[2, 1]] ["r"] =
      .ok ⟨"r", 50, [⟨"a", 1, "gap"⟩, ⟨"b", 1/2, "matched"⟩], ["a"]⟩ ∧
    (0 : ℚ) ≤ (50 : ℚ) ∧
    (⟨"r", 50, [⟨"a", 1, "gap"⟩, ⟨"b", 1/2, "matched"⟩], ["a"]⟩ :
      SkillGapResponse).learning_priority =
      ((⟨"r", 50, [⟨"a", 1, "gap"⟩, ⟨"b", 1/2, "matched"⟩], ["a"]⟩ :
        SkillGapResponse).skills.filter (fun s => s.status == "gap")).map
        (fun s => s.skill) :=
  ⟨by with_unfolding_all decide, by norm_num,
   (skill_gap_analysis_spec ⟨["b"], "r"⟩ ["a", "b"] [[2, 1]] ["r"]
      ⟨"r", 50, [⟨"a", 1, "gap"⟩, ⟨"b", 1/2, "matched"⟩], ["a"]⟩
      (by with_unfolding_all decide)).2.2.2.1⟩

/-! ## C7: adjacency ranking -/

theorem argsort_is_argsort_of (xs : List ℚ) : is_argsort_of xs (argsort xs) := by
  refine ⟨List.mergeSort_perm (List.range xs.length) (argsort_le xs), ?_⟩
  refine (argsort_pairwise xs).imp ?_
  intro i j hij
  simp only [argsort_le, decide_eq_true_eq] at hij
  rcases hij with h | ⟨h, _⟩
  · exact h.le
  · exact h.le

theorem adjacent_indices_length (sorted_asc : List ℕ) (target_idx : ℕ) :
    (adjacent_indices sorted_asc target_idx).length ≤ 10 := by
  unfold adjacent_indices
  exact List.length_take_le _ _

theorem target_not_mem_adjacent (sorted_asc : List ℕ) (target_idx : ℕ) :
    target_idx ∉ adjacent_indices sorted_asc target_idx := by
  unfold adjacent_indices
  intro h
  have h2 := List.take_subset _ _ h
  have h3 := (List.mem_filter.mp h2).2
  simp at h3

theorem adjacent_indices_pairwise (sims : List ℚ) (sorted_asc : List ℕ) (target_idx : ℕ)
    (hsort : sorted_asc.Pairwise (fun i j => sims.getD i 0 ≤ sims.getD j 0)) :
    (adjacent_indices sorted_asc target_idx).Pairwise
      (fun p q => sims.getD q 0 ≤ sims.getD p 0) := by
  have h1 : (sorted_asc.reverse).Pairwise (fun p q => sims.getD q 0 ≤ sims.getD p 0) :=
    List.pairwise_reverse.mpr hsort
  unfold adjacent_indices
  exact List.Pairwise.sublist ((List.take_sublist _ _).trans (List.filter_sublist _)) h1

/-- Claim C7 counterexample: three roles with identical feature rows give
identical similarities.  At this 3-row input the library's argsort order
is the stable one (`argsort`; 3 elements are below the insertion-sort
fallback threshold, and the instance satisfies the documented contract
`is_argsort_of`).  For query "a" the result then lists index 2 ("c")
before index 1 ("b"): ties are not broken by ascending original index as
the claim asserts. -/
theorem adjacency_tie_order_counterexample :
    is_argsort_of (role_sims dot_sim [[1, 0], [1, 0], [1, 0]] 0)
      (argsort (role_sims dot_sim [[1, 0], [1, 0], [1, 0]] 0)) ∧
    (get_adjacent_roles dot_sim argsort "a" [0, 0, 0] [⟨"a", 0⟩, ⟨"b", 0⟩, ⟨"c", 0⟩]
        [[1, 0], [1, 0], [1, 0]]).map
      (fun r => r.adjacent_roles.map (fun e => (e.role, e.similarity)))
      = some [("c", 1), ("b", 1)] ∧
    (some [("c", 1), ("b", 1)] : Option (List (String × ℚ))) ≠
      some [("b", 1), ("c", 1)] :=
  ⟨argsort_is_argsort_of _, by with_unfolding_all decide, by with_unfolding_all decide⟩

/-- Claim C7 (amended): for every resolvable role slug, and for every
argsort order admissible under the library's documented contract
(ascending by similarity, tie order unspecified), the adjacency lookup
returns at most 10 entries, never includes the queried role's index, and
orders entries by non-increasing (rounded) cosine similarity. -/
theorem adjacency_ranking_spec (cos_sim : List ℚ → List ℚ → ℚ)
    (np_argsort : List ℚ → List ℕ) (slug : String)
    (labels : List ℤ) (role_index : List RoleEntry) (feature_matrix : List (List ℚ))
    (resp : AdjacentRolesResponse) (target_idx : ℕ)
    (hfind : role_index.findIdx? (fun e => slugify e.role == slug) = some target_idx)
    (hsort : is_argsort_of (role_sims cos_sim feature_matrix target_idx)
      (np_argsort (role_sims cos_sim feature_matrix target_idx)))
    (h : get_adjacent_roles cos_sim np_argsort slug labels role_index feature_matrix =
      some resp) :
    resp.adjacent_roles.length ≤ 10 ∧
    target_idx ∉ adjacent_indices
      (np_argsort (role_sims cos_sim feature_matrix target_idx)) target_idx ∧
    resp.adjacent_roles =
      (adjacent_indices (np_argsort (role_sims cos_sim feature_matrix target_idx))
          target_idx).map
        (fun idx => AdjacentRole.mk (role_index.getD idx ⟨"", 0⟩).role
          (py_round_to 4 ((role_sims cos_sim feature_matrix target_idx).getD idx 0))
          (labels.getD idx 0)) ∧
    (resp.adjacent_roles.map (fun a => a.similarity)).Pairwise (fun a b => b ≤ a) := by
  unfold get_adjacent_roles at h
  rw [hfind] at h
  dsimp only at h
  cases h
  refine ⟨?_, target_not_mem_adjacent _ _, rfl, ?_⟩
  · simpa using adjacent_indices_length
      (np_argsort (role_sims cos_sim feature_matrix target_idx)) target_idx
  · dsimp only
    rw [List.map_map, List.pairwise_map]
    refine List.Pairwise.imp ?_ (adjacent_indices_pairwise
      (role_sims cos_sim feature_matrix target_idx)
      (np_argsort (role_sims cos_sim feature_matrix target_idx)) target_idx hsort.2)
    intro p q hpq
    exact py_round_to_mono 4 hpq

theorem adjacency_ranking_spec_witness :
    ([⟨"a", 0⟩, ⟨"b", 0⟩] : List RoleEntry).findIdx?
      (fun e => slugify e.role == "a") = some 0 ∧
    (⟨"a", 0, [⟨"b", 2, 1⟩]⟩ : AdjacentRolesResponse).adjacent_roles.length ≤ 10 :=
  ⟨by with_unfolding_all decide,
   (adjacency_ranking_spec dot_sim argsort "a" [0, 1] [⟨"a", 0⟩, ⟨"b", 0⟩] [[1], [2]]
      ⟨"a", 0, [⟨"b", 2, 1⟩]⟩ 0 (by with_unfolding_all decide)
      (argsort_is_argsort_of _)
      (by with_unfolding_all decide)).1⟩

/-! ## C2: rate-limit bucket invariants -/

theorem get_set_same (B : Buckets) (k : BucketKey) (v : List ℚ) :
    get_bucket (set_bucket B k v) k = v := by
  unfold get_bucket set_bucket
  rw [List.find?_cons_of_pos _ (by simp)]

theorem find_key_filter {B : Buckets} {k k' : BucketKey} (h : k' ≠ k) :
    (B.filter (fun e => !decide (e.1 = k))).find? (fun e => decide (e.1 = k')) =
      B.find? (fun e => decide (e.1 = k')) := by
  induction B with
  | nil => rfl
  | cons e rest ih =>
    cases hpk : (decide (e.1 = k) : Bool) with
    | true =>
      have he : e.1 = k := of_decide_eq_true hpk
      have hp : ¬ ((decide (e.1 = k') : Bool) = true) := by
        simp only [decide_eq_true_eq]
        intro hh
        exact h (hh ▸ he)
      rw [List.filter_cons_of_neg (by simp [hpk])]
      rw [@List.find?_cons_of_neg _ (fun e => decide (e.1 = k')) e rest hp]
      exact ih
    | false =>
      rw [List.filter_cons_of_pos (by simp [hpk])]
      cases hp : (decide (e.1 = k') : Bool) with
      | true =>
        rw [@List.find?_cons_of_pos _ (fun e => decide (e.1 = k')) e
          (List.filter (fun e => !decide (e.1 = k)) rest) hp]
        rw [@List.find?_cons_of_pos _ (fun e => decide (e.1 = k')) e rest hp]
      | false =>
        rw [@List.find?_cons_of_neg _ (fun e => decide (e.1 = k')) e
          (List.filter (fun e => !decide (e.1 = k)) rest) (by simp [hp])]
        rw [@List.find?_cons_of_neg _ (fun e => decide (e.1 = k')) e rest (by simp [hp])]
        exact ih

theorem get_set_ne {B : Buckets} {k k' : BucketKey} {v : List ℚ} (h : k' ≠ k) :
    get_bucket (set_bucket B k v) k' = get_bucket B k' := by
  unfold get_bucket set_bucket
  rw [@List.find?_cons_of_neg _ (fun e => decide (e.1 = k')) (k, v)
    (B.filter (fun e => !decide (e.1 = k)))
    (by simp only [decide_eq_true_eq]; exact fun hh => h hh.symm)]
  rw [find_key_filter h]

theorem prune_sublist (b : List ℚ) (now : ℚ) : (prune b now).Sublist b :=
  List.dropWhile_sublist _

theorem mem_prune {b : List ℚ} {now t : ℚ} (h : t ∈ prune b now) : t ∈ b :=
  (prune_sublist b now).subset h

theorem prune_pairwise {b : List ℚ} {now : ℚ} (h : b.Pairwise (· ≤ ·)) :
    (prune b now).Pairwise (· ≤ ·) :=
  List.Pairwise.sublist (prune_sublist b now) h

theorem prune_fresh {now : ℚ} : ∀ {b : List ℚ}, b.Pairwise (· ≤ ·) →
    ∀ t ∈ prune b now, now - WINDOW_SECONDS < t := by
  intro b
  induction b with
  | nil =>
    intro _ t ht
    simp [prune] at ht
  | cons a rest ih =>
    intro hs t ht
    rw [prune, List.dropWhile_cons] at ht
    obtain ⟨ha, hrest⟩ := List.pairwise_cons.mp hs
    by_cases hc : (decide (a ≤ now - WINDOW_SECONDS) : Bool) = true
    · rw [if_pos hc] at ht
      exact ih hrest t ht
    · rw [if_neg hc] at ht
      have ha' : now - WINDOW_SECONDS < a :=
        lt_of_not_le (fun hh => hc (decide_eq_true hh))
      rcases List.mem_cons.mp ht with rfl | hmem
      · exact ha'
      · exact lt_of_lt_of_le ha' (ha t hmem)

theorem prune_of_fresh {b : List ℚ} {now : ℚ}
    (h : ∀ t ∈ b, now - WINDOW_SECONDS < t) : prune b now = b := by
  cases b with
  | nil => rfl
  | cons a rest =>
    rw [prune, List.dropWhile_cons, if_neg]
    simp only [decide_eq_true_eq]
    exact not_le.mpr (h a (List.mem_cons_self a rest))

theorem sorted_append_now {b : List ℚ} {now : ℚ} (hs : b.Pairwise (· ≤ ·))
    (hb : ∀ t ∈ b, t ≤ now) : (b ++ [now]).Pairwise (· ≤ ·) := by
  apply List.pairwise_append.mpr
  refine ⟨hs, List.pairwise_singleton _ _, ?_⟩
  intro x hx y hy
  rw [List.mem_singleton] at hy
  subst hy
  exact hb x hx

/-- Inversion of one `check_and_consume` call: how each bucket changes, and
that an admitted call had strictly-below-limit pruned buckets. -/
theorem check_and_consume_cases (B : Buckets) (client : String) (cls : EndpointClass)
    (eL gL : ℕ) (now : ℚ) (res : RateLimitResult) (B1 : Buckets)
    (h : check_and_consume B client cls eL gL now = .ok (res, B1)) :
    get_bucket B1 (client, Scope.global) =
      prune (get_bucket B (client, Scope.global)) now ++
        (if res.allowed then [now] else []) ∧
    get_bucket B1 (client, Scope.endpoint cls) =
      prune (get_bucket B (client, Scope.endpoint cls)) now ++
        (if res.allowed then [now] else []) ∧
    (∀ k, k ≠ (client, Scope.global) → k ≠ (client, Scope.endpoint cls) →
      get_bucket B1 k = get_bucket B k) ∧
    (res.allowed = true →
      (prune (get_bucket B (client, Scope.global)) now).length < gL ∧
      (prune (get_bucket B (client, Scope.endpoint cls)) now).length < eL) := by
  have hkey : ((client, Scope.global) : BucketKey) ≠ (client, Scope.endpoint cls) := by
    intro hh
    injection hh with h1 h2
    cases h2
  simp only [check_and_consume] at h
  split at h
  · -- global limit reached
    split at h
    · exact absurd h (by simp)
    · rename_i oldest rest heq
      simp only [Except.ok.injEq, Prod.mk.injEq] at h
      obtain ⟨hres, hB⟩ := h
      subst hres
      subst hB
      refine ⟨?_, ?_, ?_, by intro hh; cases hh⟩
      · rw [get_set_ne hkey, get_set_same]
        simp
      · rw [get_set_same]
        simp
      · intro k hk1 hk2
        rw [get_set_ne hk2, get_set_ne hk1]
  · split at h
    · -- endpoint limit reached
      split at h
      · exact absurd h (by simp)
      · rename_i oldest rest heq
        simp only [Except.ok.injEq, Prod.mk.injEq] at h
        obtain ⟨hres, hB⟩ := h
        subst hres
        subst hB
        refine ⟨?_, ?_, ?_, by intro hh; cases hh⟩
        · rw [get_set_ne hkey, get_set_same]
          simp
        · rw [get_set_same]
          simp
        · intro k hk1 hk2
          rw [get_set_ne hk2, get_set_ne hk1]
    · -- admitted
      rename_i hg he
      simp only [Except.ok.injEq, Prod.mk.injEq] at h
      obtain ⟨hres, hB⟩ := h
      subst hres
      subst hB
      refine ⟨?_, ?_, ?_, ?_⟩
      · rw [get_set_ne hkey, get_set_same]
        simp
      · rw [get_set_same]
        simp
      · intro k hk1 hk2
        rw [get_set_ne hk2, get_set_ne hk1]
      · intro _
        exact ⟨lt_of_not_le hg, lt_of_not_le he⟩

theorem check_sizes {lf : EndpointClass → ℕ} {g : ℕ} {B : Buckets} {client : String}
    {cls : EndpointClass} {now : ℚ} {res : RateLimitResult} {B1 : Buckets}
    (hB : sizes_ok lf g B)
    (h : check_and_consume B client cls (lf cls) g now = .ok (res, B1)) :
    sizes_ok lf g B1 := by
  obtain ⟨hg, he, hoth, hlt⟩ := check_and_consume_cases _ _ _ _ _ _ _ _ h
  have hprune_le : ∀ (k : BucketKey) (n : ℕ), (get_bucket B k).length ≤ n →
      (prune (get_bucket B k) now).length ≤ n :=
    fun k n hb => le_trans (prune_sublist _ _).length_le hb
  intro c cls'
  constructor
  · by_cases hk : ((c, Scope.endpoint cls') : BucketKey) = (client, Scope.endpoint cls)
    · have hcls : cls' = cls := by
        injection hk with h1 h2
        injection h2 with h3
      subst hcls
      rw [hk, he]
      cases hres : res.allowed
      · rw [if_neg (show ¬(false = true) by simp), List.append_nil]
        exact hprune_le _ _ (hB client cls').1
      · rw [if_pos rfl, List.length_append, List.length_singleton]
        have := (hlt hres).2
        omega
    · have hk2 : ((c, Scope.endpoint cls') : BucketKey) ≠ (client, Scope.global) := by
        intro hh
        injection hh with h1 h2
        cases h2
      rw [hoth _ hk2 hk]
      exact (hB c cls').1
  · by_cases hk : ((c, Scope.global) : BucketKey) = (client, Scope.global)
    · rw [hk, hg]
      cases hres : res.allowed
      · rw [if_neg (show ¬(false = true) by simp), List.append_nil]
        exact hprune_le _ _ (hB client cls).2
      · rw [if_pos rfl, List.length_append, List.length_singleton]
        have := (hlt hres).1
        omega
    · have hk2 : ((c, Scope.global) : BucketKey) ≠ (client, Scope.endpoint cls) := by
        intro hh
        injection hh with h1 h2
        cases h2
      rw [hoth _ hk hk2]
      exact (hB c cls').2

theorem check_wf {B : Buckets} {T now : ℚ} {client : String} {cls : EndpointClass}
    {eL gL : ℕ} {res : RateLimitResult} {B1 : Buckets}
    (hW : sorted_bounded B T) (hT : T ≤ now)
    (h : check_and_consume B client cls eL gL now = .ok (res, B1)) :
    sorted_bounded B1 now := by
  obtain ⟨hg, he, hoth, _⟩ := check_and_consume_cases _ _ _ _ _ _ _ _ h
  have key : ∀ (k : BucketKey),
      get_bucket B1 k = prune (get_bucket B k) now ++
        (if res.allowed then [now] else []) ∨
      get_bucket B1 k = get_bucket B k := by
    intro k
    by_cases h1 : k = (client, Scope.global)
    · left
      rw [h1, hg]
    · by_cases h2 : k = (client, Scope.endpoint cls)
      · left
        rw [h2, he]
      · right
        exact hoth k h1 h2
  intro k
  rcases key k with hk | hk
  · rw [hk]
    cases hres : res.allowed
    · rw [if_neg (show ¬(false = true) by simp), List.append_nil]
      refine ⟨prune_pairwise (hW _).1, ?_⟩
      intro t ht
      exact le_trans ((hW _).2 t (mem_prune ht)) hT
    · rw [if_pos rfl]
      refine ⟨sorted_append_now (prune_pairwise (hW _).1)
        (fun t ht => le_trans ((hW _).2 t (mem_prune ht)) hT), ?_⟩
      intro t ht
      rcases List.mem_append.mp ht with h1 | h1
      · exact le_trans ((hW _).2 t (mem_prune h1)) hT
      · rw [List.mem_singleton] at h1
        subst h1
        exact le_refl _
  · rw [hk]
    exact ⟨(hW k).1, fun t ht => le_trans ((hW k).2 t ht) hT⟩

theorem foldl_max_le {c : ℚ} : ∀ (l : List ℚ) (a : ℚ), a ≤ c → (∀ x ∈ l, x ≤ c) →
    l.foldl max a ≤ c := by
  intro l
  induction l with
  | nil =>
    intro a ha _
    simpa using ha
  | cons x xs ih =>
    intro a ha hl
    rw [List.foldl_cons]
    exact ih (max a x) (max_le ha (hl x (List.mem_cons_self _ _)))
      (fun y hy => hl y (List.mem_cons_of_mem _ hy))

theorem run_limiter_inv (lf : EndpointClass → ℕ) (g : ℕ) :
    ∀ (reqs : List (String × EndpointClass × ℚ)) (B : Buckets) (T : ℚ),
      sizes_ok lf g B → sorted_bounded B T →
      (T :: reqs.map (fun r => r.2.2)).Pairwise (· ≤ ·) →
      ∀ B1, run_limiter lf g reqs B = .ok B1 →
        sizes_ok lf g B1 ∧
        sorted_bounded B1 (reqs.foldl (fun a r => max a r.2.2) T) := by
  intro reqs
  induction reqs with
  | nil =>
    intro B T h1 h2 _ B1 h
    simp only [run_limiter, Except.ok.injEq] at h
    subst h
    exact ⟨h1, h2⟩
  | cons r rest ih =>
    intro B T h1 h2 hmono B1 h
    obtain ⟨c, cls, t0⟩ := r
    simp only [List.map_cons] at hmono
    simp only [run_limiter] at h
    cases hc : check_and_consume B c cls (lf cls) g t0 with
    | error e =>
      rw [hc] at h
      exact absurd h (by simp)
    | ok p =>
      obtain ⟨res0, B2⟩ := p
      rw [hc] at h
      dsimp only at h
      have hT0 : T ≤ t0 := (List.pairwise_cons.mp hmono).1 t0 (List.mem_cons_self _ _)
      have h1n := check_sizes h1 hc
      have h2n := check_wf h2 hT0 hc
      have hmono2 : (t0 :: rest.map (fun r => r.2.2)).Pairwise (· ≤ ·) :=
        (List.pairwise_cons.mp hmono).2
      have hres := ih B2 t0 h1n h2n hmono2 B1 h
      refine ⟨hres.1, ?_⟩
      rw [List.foldl_cons]
      have hmz : max T t0 = t0 := max_eq_right hT0
      rw [hmz]
      exact hres.2

/-- Claim C2 counterexample: after an admitted `lookup` call at t=0 and an
admitted `predict` call at t=100 (predict limit 1), the rejected `predict`
check at t=3650 prunes the expired t=0 entry out of the global bucket: the
rejected check does not leave the buckets unchanged. -/
theorem rate_limit_reject_prune_counterexample :
    ((run_limiter (fun cls => match cls with | .predict => 1 | _ => 240) 400
        [("c", .lookup, (0 : ℚ)), ("c", .predict, 100)] []).bind
      (fun B => (check_and_consume B "c" .predict 1 400 3650).map
        (fun rb => (rb.1.allowed, get_bucket B ("c", Scope.global),
                    get_bucket rb.2 ("c", Scope.global)))))
      = .ok (false, [0, 100], [100]) ∧
    ([0, 100] : List ℚ) ≠ [100] := by
  with_unfolding_all decide

/-- Claim C2 (amended): starting from empty buckets and a non-decreasing
clock, every reachable bucket stays within its scope's configured limit;
after any further check at time `now` (no earlier than every request), the
two touched buckets hold only timestamps newer than `now - 3600`; a
rejected check appends nothing — each touched bucket is exactly its pruned
previous value — while an admitted check appends `now` to both. -/
theorem rate_limit_bucket_invariants
    (lf : EndpointClass → ℕ) (g : ℕ) (reqs : List (String × EndpointClass × ℚ))
    (client : String) (cls : EndpointClass) (now : ℚ)
    (B : Buckets) (res : RateLimitResult) (B1 : Buckets)
    (hmono : (reqs.map (fun r => r.2.2)).Pairwise (· ≤ ·))
    (hnow : ∀ r ∈ reqs, r.2.2 ≤ now)
    (hrun : run_limiter lf g reqs [] = .ok B)
    (hstep : check_and_consume B client cls (lf cls) g now = .ok (res, B1)) :
    sizes_ok lf g B ∧ sizes_ok lf g B1 ∧
    (∀ t ∈ get_bucket B1 (client, Scope.global), now - WINDOW_SECONDS < t) ∧
    (∀ t ∈ get_bucket B1 (client, Scope.endpoint cls), now - WINDOW_SECONDS < t) ∧
    (res.allowed = false →
      get_bucket B1 (client, Scope.global) =
        prune (get_bucket B (client, Scope.global)) now ∧
      get_bucket B1 (client, Scope.endpoint cls) =
        prune (get_bucket B (client, Scope.endpoint cls)) now) ∧
    (res.allowed = true →
      get_bucket B1 (client, Scope.global) =
        prune (get_bucket B (client, Scope.global)) now ++ [now] ∧
      get_bucket B1 (client, Scope.endpoint cls) =
        prune (get_bucket B (client, Scope.endpoint cls)) now ++ [now]) := by
  have hS0 : sizes_ok lf g [] := by
    intro c cl
    constructor <;> exact Nat.zero_le _
  have hW0 : ∀ T : ℚ, sorted_bounded [] T := by
    intro T k
    exact ⟨List.Pairwise.nil, by intro t ht; simp [get_bucket] at ht⟩
  obtain ⟨hSB, Tf, hW, hTle⟩ :
      sizes_ok lf g B ∧ ∃ Tf, sorted_bounded B Tf ∧ Tf ≤ now := by
    cases hr : reqs with
    | nil =>
      subst hr
      simp only [run_limiter, Except.ok.injEq] at hrun
      subst hrun
      exact ⟨hS0, now, hW0 now, le_refl now⟩
    | cons r rest =>
      subst hr
      have hT0 : (r.2.2 :: ((r :: rest).map fun x => x.2.2)).Pairwise (· ≤ ·) := by
        simp only [List.map_cons] at hmono ⊢
        refine List.pairwise_cons.mpr ⟨?_, hmono⟩
        intro b hb
        rcases List.mem_cons.mp hb with rfl | hb2
        · exact le_refl _
        · exact (List.pairwise_cons.mp hmono).1 b hb2
      have hres := run_limiter_inv lf g (r :: rest) [] r.2.2 hS0 (hW0 _) hT0 B hrun
      refine ⟨hres.1, _, hres.2, ?_⟩
      rw [show ((r :: rest).foldl (fun a x => max a x.2.2) r.2.2) =
          (((r :: rest).map (fun x => x.2.2)).foldl max r.2.2) from
        (List.foldl_map _ _ _ _).symm]
      apply foldl_max_le
      · exact hnow r (List.mem_cons_self _ _)
      · intro x hx
        obtain ⟨y, hy, rfl⟩ := List.mem_map.mp hx
        exact hnow y hy
  have hS1 := check_sizes hSB hstep
  have hW1 := check_wf hW hTle hstep
  obtain ⟨hg, he, _, _⟩ := check_and_consume_cases _ _ _ _ _ _ _ _ hstep
  have hWpos : (0 : ℚ) < WINDOW_SECONDS := by norm_num [WINDOW_SECONDS]
  refine ⟨hSB, hS1, ?_, ?_, ?_, ?_⟩
  · intro t ht
    rw [hg] at ht
    rcases List.mem_append.mp ht with h1 | h1
    · exact prune_fresh (hW _).1 t h1
    · cases hra : res.allowed
      · rw [hra] at h1
        simp at h1
      · rw [hra, if_pos rfl, List.mem_singleton] at h1
        rw [h1]
        linarith
  · intro t ht
    rw [he] at ht
    rcases List.mem_append.mp ht with h1 | h1
    · exact prune_fresh (hW _).1 t h1
    · cases hra : res.allowed
      · rw [hra] at h1
        simp at h1
      · rw [hra, if_pos rfl, List.mem_singleton] at h1
        rw [h1]
        linarith
  · intro hra
    rw [hg, he, hra]
    simp
  · intro hra
    rw [hg, he, hra]
    simp

set_option maxRecDepth 8000 in
theorem rate_limit_bucket_invariants_witness :
    run_limiter endpoint_limit_for 400 [("c", EndpointClass.predict, (0 : ℚ))] [] =
      .ok [(("c", Scope.endpoint .predict), [0]), (("c", Scope.global), [0])] ∧
    sizes_ok endpoint_limit_for 400
      [(("c", Scope.endpoint .predict), [0]), (("c", Scope.global), [0])] :=
  ⟨by with_unfolding_all decide,
   (rate_limit_bucket_invariants endpoint_limit_for 400
      [("c", EndpointClass.predict, (0 : ℚ))] "c" .predict 1
      [(("c", Scope.endpoint .predict), [0]), (("c", Scope.global), [0])]
      ⟨true, "route", 40, 38, 0, 3600⟩
      [(("c", Scope.endpoint .predict), [0, 1]), (("c", Scope.global), [0, 1])]
      (by with_unfolding_all decide) (by with_unfolding_all decide)
      (by with_unfolding_all rfl) (by with_unfolding_all rfl)).1⟩

/-! ## C6: retry-after on rejection -/

/-- Claim C6: whenever the rate limiter rejects, the returned retry-after
equals `ceil(oldest retained timestamp + 3600 - now)` floored at one
second, the oldest being the head of the (pruned) bucket of the rejecting
scope; in particular, after 40 admitted `predict` calls from one identity
within the window (the configured predict limit), the 41st call in the
same hour is rejected with scope `route` and `retry_after = 3560 ≥ 1`. -/
theorem rate_limit_retry_after_spec :
    (∀ (B : Buckets) (client : String) (cls : EndpointClass) (eL gL : ℕ) (now : ℚ)
      (res : RateLimitResult) (B1 : Buckets),
      check_and_consume B client cls eL gL now = .ok (res, B1) →
      res.allowed = false →
      prune (get_bucket B (if res.scope == "global" then (client, Scope.global)
        else (client, Scope.endpoint cls))) now ≠ [] ∧
      res.retry_after_seconds =
        max 1 ⌈(prune (get_bucket B (if res.scope == "global" then (client, Scope.global)
          else (client, Scope.endpoint cls))) now).headD 0 + WINDOW_SECONDS - now⌉ ∧
      1 ≤ res.retry_after_seconds) ∧
    (run_limiter endpoint_limit_for ml_limit_global_per_hour (predict_example_reqs 0) [] =
        .ok (predict_example_buckets 40) ∧
      check_and_consume (predict_example_buckets 40) "c" .predict ml_limit_predict_per_hour
        ml_limit_global_per_hour 40 =
        .ok (predict_example_result, predict_example_buckets 40) ∧
      predict_example_result.allowed = false ∧
      predict_example_result.scope = "route" ∧
      predict_example_result.retry_after_seconds = 3560 ∧
      1 ≤ predict_example_result.retry_after_seconds) := by
  constructor
  · intro B client cls eL gL now res B1 h hrej
    simp only [check_and_consume] at h
    split at h
    · split at h
      · exact absurd h (by simp)
      · rename_i oldest rest heq
        simp only [Except.ok.injEq, Prod.mk.injEq] at h
        obtain ⟨hres, hB⟩ := h
        subst hres
        dsimp only
        refine ⟨?_, ?_, le_max_left _ _⟩
        · rw [if_pos (show (("global" == "global") = true) from rfl), heq]
          exact List.cons_ne_nil _ _
        · rw [if_pos (show (("global" == "global") = true) from rfl), heq]
          rfl
    · split at h
      · split at h
        · exact absurd h (by simp)
        · rename_i oldest rest heq
          simp only [Except.ok.injEq, Prod.mk.injEq] at h
          obtain ⟨hres, hB⟩ := h
          subst hres
          dsimp only
          refine ⟨?_, ?_, le_max_left _ _⟩
          · rw [if_neg (by decide), heq]
            exact List.cons_ne_nil _ _
          · rw [if_neg (by decide), heq]
            rfl
      · simp only [Except.ok.injEq, Prod.mk.injEq] at h
        obtain ⟨hres, hB⟩ := h
        subst hres
        exact absurd hrej (by simp)
  · exact ⟨by with_unfolding_all rfl, by with_unfolding_all rfl, rfl, rfl, rfl, by decide⟩
